import Mathlib

/-!
Verification development for the user-flow analysis script
(`sources/user_flow_analyzer.py`).

The script ingests user interaction events, validates them, sorts them by
their `event_time` field, groups them per `(user_id, session_id)`, and runs
a collection of flow analyses (checkout success, abandonment, entry points,
product popularity, page dwell time) and anomaly detectors (long idle gaps,
error keywords, unusually long sessions), each emitting findings.

This file is a shallow embedding of that pipeline:

* Python strings are Lean `String`s; substring tests (`'x' in s`) are
  modelled by an executable character-list infix test; `str.lower()` is
  `String.toLower` (both lower-case ASCII letters, which covers the data
  and the keyword constants involved).
* `datetime.fromisoformat` (after the script's `.replace('Z', '+00:00')`)
  is modelled by `fromisoformatModel`, an executable parser for the
  `YYYY-MM-DDTHH:MM:SS` format with an optional `±HH:MM` offset, returning
  POSIX seconds.  Fractional seconds and date-only forms accepted by Python
  are outside the modelled subset; offset-less timestamps (naive datetimes)
  are identified with UTC.
* Python `dict`s (which preserve insertion order) and `Counter`s are
  modelled by insertion-ordered association lists.  `Counter.most_common(n)`
  and `sorted(..., reverse=True)` are both stable descending sorts, modelled
  by `sortDesc`.
* Exact rational arithmetic (`ℚ`) stands in for Python floats; float
  formatting `f"{x:.1f}"` is modelled by `fmt1` (round half to even).
* Statements that can raise (`x / y`, `statistics.mean`, `statistics.stdev`,
  `max(...)`) are modelled in the `Except String` monad so that "does not
  raise" is a provable proposition.
* Python `set` iteration order is unspecified; it is modelled by an explicit
  parameter `σ` applied to the first-insertion-order enumeration of the set.
-/

namespace UserFlow

/-- Boolean prefix test on character lists (`==` on `Char` is code-point
equality, matching Python string comparison). -/
def chPrefix : List Char → List Char → Bool
  | [], _ => true
  | _ :: _, [] => false
  | a :: as, b :: bs => a == b && chPrefix as bs

/-- Boolean infix (substring) test on character lists. -/
def chInfix (n : List Char) : List Char → Bool
  | [] => n.isEmpty
  | b :: bs => chPrefix n (b :: bs) || chInfix n bs

/-- Model of Python's substring test `needle in hay`. -/
def strHasSub (needle hay : String) : Bool := chInfix needle.data hay.data

/-- Lexicographic (code-point) `≤` on character lists: the order Python uses
to compare strings, hence the order used by `events.sort(key=...)`. -/
def chLe : List Char → List Char → Bool
  | [], _ => true
  | _ :: _, [] => false
  | a :: as, b :: bs =>
    if a.toNat < b.toNat then true
    else if b.toNat < a.toNat then false
    else chLe as bs

/-- Round half to even of a rational to an integer (the rounding used by
Python's float formatting; exact on the rational model). -/
def rne (q : ℚ) : ℤ :=
  let f := Int.floor q
  let r := q - f
  if r < 1/2 then f
  else if 1/2 < r then f + 1
  else if f % 2 = 0 then f else f + 1

/-- Model of Python's `f"{x:.1f}"`: one decimal digit, round half to even. -/
def fmt1 (q : ℚ) : String :=
  let n := rne (q * 10)
  let m := n.natAbs
  let sign := if n < 0 then "-" else ""
  sign ++ toString (m / 10) ++ "." ++ toString (m % 10)

/-- The number of days in a month of a given year (proleptic Gregorian). -/
def daysInMonth (y m : ℕ) : ℕ :=
  if m = 2 then (if y % 4 = 0 ∧ (y % 100 ≠ 0 ∨ y % 400 = 0) then 29 else 28)
  else if m = 4 ∨ m = 6 ∨ m = 9 ∨ m = 11 then 30
  else 31

/-- Days since the Unix epoch of a civil date (standard days-from-civil
algorithm, valid for years ≥ 1). -/
def daysFromCivil (y m d : ℕ) : ℤ :=
  let y' := if m ≤ 2 then y - 1 else y
  let era := y' / 400
  let yoe := y' - era * 400
  let mp := if 2 < m then m - 3 else m + 9
  let doy := (153 * mp + 2) / 5 + d - 1
  let doe := yoe * 365 + yoe / 4 - yoe / 100 + doy
  (era * 146097 + doe : ℤ) - 719468

/-- Value of an ASCII digit character. -/
def digitVal (c : Char) : Option ℕ :=
  if c.isDigit then some (c.toNat - 48) else none

/-- Two-digit decimal field. -/
def dig2 (a b : Char) : Option ℕ := do
  pure ((← digitVal a) * 10 + (← digitVal b))

/-- Four-digit decimal field. -/
def dig4 (a b c d : Char) : Option ℕ := do
  pure ((← dig2 a b) * 100 + (← dig2 c d))

/-- UTC-offset suffix in seconds: empty (naive, taken as UTC) or `±HH:MM`. -/
def offsetSecs : List Char → Option ℤ
  | [] => some 0
  | ['+', h1, h2, ':', m1, m2] => do
    let h ← dig2 h1 h2
    let m ← dig2 m1 m2
    if h ≤ 23 ∧ m ≤ 59 then some ((h * 3600 + m * 60 : ℕ) : ℤ) else none
  | ['-', h1, h2, ':', m1, m2] => do
    let h ← dig2 h1 h2
    let m ← dig2 m1 m2
    if h ≤ 23 ∧ m ≤ 59 then some (-((h * 3600 + m * 60 : ℕ) : ℤ)) else none
  | _ => none

/-- Model of `datetime.fromisoformat` restricted to
`YYYY-MM-DDTHH:MM:SS[±HH:MM]`, returning POSIX seconds. -/
def fromisoformatModel (s : String) : Option ℤ :=
  match s.data with
  | y1 :: y2 :: y3 :: y4 :: '-' :: mo1 :: mo2 :: '-' :: d1 :: d2c :: 'T' ::
    h1 :: h2 :: ':' :: mi1 :: mi2 :: ':' :: s1 :: s2 :: rest => do
    let y ← dig4 y1 y2 y3 y4
    let mo ← dig2 mo1 mo2
    let d ← dig2 d1 d2c
    let h ← dig2 h1 h2
    let mi ← dig2 mi1 mi2
    let se ← dig2 s1 s2
    if 1 ≤ y ∧ 1 ≤ mo ∧ mo ≤ 12 ∧ 1 ≤ d ∧ d ≤ daysInMonth y mo ∧
        h ≤ 23 ∧ mi ≤ 59 ∧ se ≤ 59 then do
      let off ← offsetSecs rest
      some (daysFromCivil y mo d * 86400 + ((h * 3600 + mi * 60 + se : ℕ) : ℤ) - off)
    else none
  | _ => none

/-- Character-level model of `t.replace('Z', '+00:00')` (the pattern is a
single character, so a character-wise replacement is exact). -/
def zReplace : List Char → List Char
  | [] => []
  | c :: cs =>
    if c == 'Z' then '+' :: '0' :: '0' :: ':' :: '0' :: '0' :: zReplace cs
    else c :: zReplace cs

/-- Model of the script's timestamp parse
`datetime.fromisoformat(t.replace('Z', '+00:00'))`. -/
def parse_event_time (t : String) : Option ℤ :=
  fromisoformatModel (String.mk (zReplace t.data))

/-- A validated event.  `css` and `text` are optional; `none` models an
absent key (the script reads them with `event.get(..., default)`).  A key
present with JSON `null` would crash the script's `.lower()` calls and is
not modelled; the claims under check only involve absent values. -/
structure Event where
  user_id : String
  session_id : String
  event_time : String
  path : String
  css : Option String := none
  text : Option String := none
deriving DecidableEq, Repr

/-- A raw input record before validation; `none` models a missing or null
field (both are rejected identically by the validator). -/
structure Raw where
  user_id : Option String := none
  session_id : Option String := none
  event_time : Option String := none
  path : Option String := none
  css : Option String := none
  text : Option String := none
deriving DecidableEq, Repr

/-- Embedding of `_is_valid_event`: the four required fields are present and
non-null and the timestamp parses. -/
def is_valid_event (r : Raw) : Bool :=
  r.user_id.isSome && r.session_id.isSome && r.event_time.isSome && r.path.isSome &&
    (match r.event_time with
     | some t => (parse_event_time t).isSome
     | none => false)

/-- Conversion of a raw record that passed validation into an `Event`
(fields defaulted with empty strings are never used: validity guarantees
the four required fields are present). -/
def rawToEvent (r : Raw) : Event :=
  { user_id := r.user_id.getD ""
    session_id := r.session_id.getD ""
    event_time := r.event_time.getD ""
    path := r.path.getD ""
    css := r.css
    text := r.text }

/-- Embedding of the validation phase of `load_data`: the list of events
that passed validation, in input order. -/
def load_valid (rs : List Raw) : List Event :=
  (rs.filter is_valid_event).map rawToEvent

/-! ## Sorting and grouping (`process_events`)

`self.events.sort(key=lambda x: x['event_time'])` is a stable sort by the
raw `event_time` string under Python's lexicographic code-point comparison.
It is modelled by Mathlib's stable `List.insertionSort` over `timeLe`. -/

/-- The sort key order of `process_events`: lexicographic comparison of the
raw `event_time` strings. -/
def timeLe (a b : Event) : Prop := chLe a.event_time.data b.event_time.data = true

instance : DecidableRel timeLe := fun a b => by
  unfold timeLe; infer_instance

theorem chLe_total (a b : List Char) : chLe a b = true ∨ chLe b a = true := by
  induction a generalizing b with
  | nil => left; rfl
  | cons x xs ih =>
    cases b with
    | nil => right; rfl
    | cons y ys =>
      by_cases h1 : x.toNat < y.toNat
      · left; simp [chLe, h1]
      · by_cases h2 : y.toNat < x.toNat
        · right; simp [chLe, h1, h2, Nat.lt_asymm h2]
        · rcases ih ys with h | h
          · left; simp [chLe, h1, h2, h]
          · right; simp [chLe, h1, h2, h]

theorem chLe_trans {a b c : List Char} (h1 : chLe a b = true) (h2 : chLe b c = true) :
    chLe a c = true := by
  induction a generalizing b c with
  | nil => rfl
  | cons x xs ih =>
    cases b with
    | nil => simp [chLe] at h1
    | cons y ys =>
      cases c with
      | nil => simp [chLe] at h2
      | cons z zs =>
        simp only [chLe] at h1 h2 ⊢
        by_cases hxy : x.toNat < y.toNat
        · by_cases hyz : y.toNat < z.toNat
          · simp [Nat.lt_trans hxy hyz]
          · by_cases hzy : z.toNat < y.toNat
            · simp [hyz, hzy] at h2
            · have : y.toNat = z.toNat := Nat.le_antisymm (Nat.le_of_not_lt hzy) (Nat.le_of_not_lt hyz)
              simp [this ▸ hxy]
        · by_cases hyx : y.toNat < x.toNat
          · simp [hxy, hyx] at h1
          · have hxyeq : x.toNat = y.toNat := Nat.le_antisymm (Nat.le_of_not_lt hyx) (Nat.le_of_not_lt hxy)
            simp only [hxy, if_false, hyx, if_false] at h1
            by_cases hyz : y.toNat < z.toNat
            · simp [hxyeq ▸ hyz]
            · by_cases hzy : z.toNat < y.toNat
              · simp [hyz, hzy] at h2
              · simp only [hyz, if_false, hzy, if_false] at h2
                simp [hxyeq ▸ hyz, hxyeq ▸ hzy, ih h1 h2]

instance : IsTotal Event timeLe := ⟨fun _ _ => chLe_total _ _⟩

instance : IsTrans Event timeLe := ⟨fun _ _ _ => chLe_trans⟩

/-- Embedding of `self.events.sort(key=lambda x: x['event_time'])`: Python's
`list.sort` is a stable sort by the key, and any two stable sorts under the
same total preorder agree, so the stable `insertionSort` is a faithful
model. -/
def pySortEvents (l : List Event) : List Event := List.insertionSort timeLe l

/-- The per-user grouped structure: an insertion-ordered association list,
modelling the nested `defaultdict` `self.user_sessions`. -/
abbrev SessMap := List (String × List Event)

/-- Grouped events: `user_id ↦ session_id ↦ ordered event list`. -/
abbrev Grouped := List (String × SessMap)

/-- Append an event to its session's list inside one user's session map,
creating the session at the end on first sight (Python `defaultdict(list)`
plus dict insertion order). -/
def insertSess (sid : String) (e : Event) : SessMap → SessMap
  | [] => [(sid, [e])]
  | (s, es) :: rest =>
    if s = sid then (s, es ++ [e]) :: rest else (s, es) :: insertSess sid e rest

/-- Append an event into the grouped structure
(`self.user_sessions[user_id][session_id].append(event)`). -/
def insertEvent (g : Grouped) (e : Event) : Grouped :=
  match g with
  | [] => [(e.user_id, [(e.session_id, [e])])]
  | (u, sess) :: rest =>
    if u = e.user_id then (u, insertSess e.session_id e sess) :: rest
    else (u, sess) :: insertEvent rest e

/-- Embedding of `process_events`: sort all events by the raw `event_time`
string, then fold them into the grouped structure in order. -/
def process_events (events : List Event) : Grouped :=
  (pySortEvents events).foldl insertEvent []

/-- Lookup of one session's event list inside a session map (`[]` when the
session is absent). -/
def lookupSess (m : SessMap) (sid : String) : List Event :=
  match m with
  | [] => []
  | (s, es) :: rest => if s = sid then es else lookupSess rest sid

/-- Lookup of one user's session map (`[]` when the user is absent). -/
def lookupUser (g : Grouped) (uid : String) : SessMap :=
  match g with
  | [] => []
  | (u, m) :: rest => if u = uid then m else lookupUser rest uid

/-- Lookup of one session's event list in the grouped structure. -/
def lookupSession (g : Grouped) (uid sid : String) : List Event :=
  lookupSess (lookupUser g uid) sid

/-- Whether an event belongs to the `(uid, sid)` session. -/
def inSession (uid sid : String) (e : Event) : Bool :=
  e.user_id = uid ∧ e.session_id = sid

/-- Total number of events held in the grouped structure. -/
def totalEvents (g : Grouped) : ℕ :=
  (g.map (fun um => (um.2.map (fun se => se.2.length)).sum)).sum

/-- Total event count inside one user's session map. -/
def sessTotal (m : SessMap) : ℕ := (m.map (fun se => se.2.length)).sum

/-! ## Counters and stable descending sort

Python `Counter` preserves first-insertion key order; `Counter.most_common(n)`
(via `heapq.nlargest` with a decreasing tie-index) and
`sorted(..., key=..., reverse=True)` are both stable descending sorts. -/

/-- One counting step: bump the key's entry, or append a fresh entry at the
end (dict insertion order). -/
def bump (acc : List (String × ℕ)) (k : String) : List (String × ℕ) :=
  match acc with
  | [] => [(k, 1)]
  | (a, n) :: rest => if a = k then (a, n + 1) :: rest else (a, n) :: bump rest k

/-- Embedding of `Counter(l)` for a list of keys: counts with keys in
first-encounter order. -/
def countList (l : List String) : List (String × ℕ) := l.foldl bump []

/-- First-encounter deduplication of a list (the key order of a Python
dict / `Counter` built by successive insertions). -/
def fdedup (l : List String) : List String :=
  l.foldl (fun acc k => if k ∈ acc then acc else acc ++ [k]) []

/-- Stable descending insertion: the new element goes after every element
with a value ≥ its own. -/
def insDesc {α β : Type} [LinearOrder β] (x : α × β) : List (α × β) → List (α × β)
  | [] => [x]
  | y :: ys => if y.2 < x.2 then x :: y :: ys else y :: insDesc x ys

/-- Stable descending sort by the second component: the model of both
`Counter.most_common` (without the truncation) and
`sorted(..., key=lambda kv: kv[1], reverse=True)`. -/
def sortDesc {α β : Type} [LinearOrder β] (l : List (α × β)) : List (α × β) :=
  l.foldl (fun acc x => insDesc x acc) []

/-- The invariant relation of the stable descending sort: a later element
has a strictly smaller value, or an equal value and a key related by `r`
(instantiated with first-encounter precedence). -/
def Rdesc {α β : Type} [LinearOrder β] (r : α → α → Prop) (x y : α × β) : Prop :=
  y.2 < x.2 ∨ (x.2 = y.2 ∧ r x.1 y.1)

/-- Embedding of `Counter.most_common(n)` on the insertion-ordered counter
list. -/
def most_common {α β : Type} [LinearOrder β] (n : ℕ) (c : List (α × β)) : List (α × β) :=
  (sortDesc c).take n

/-! ## Sessions, findings, and the flow analyzer -/

/-- One session as scanned by the nested
`for user_id, sessions ... for session_id, events ...` loops. -/
structure SessionRec where
  user_id : String
  session_id : String
  events : List Event
deriving DecidableEq, Repr

/-- All sessions of the grouped structure, in scan order. -/
def allSessions (g : Grouped) : List SessionRec :=
  g.flatMap (fun um => um.2.map (fun se => ⟨um.1, se.1, se.2⟩))

/-- One long-gap record of `_detect_time_gaps`. -/
structure GapInfo where
  user_id : String
  session_id : String
  gap_minutes : ℚ
  stuck_on_page : String
  next_page : String
deriving DecidableEq, Repr

/-- One error record of `_detect_error_patterns` (`text`/`css` as read with
`event.get(..., 'N/A')`). -/
structure ErrInfo where
  event : Event
  text : String
  css : String
deriving DecidableEq, Repr

/-- One unusual-session record of `_detect_unusual_behaviors`. -/
structure SessInfo where
  user_id : String
  session_id : String
  event_count : ℕ
  duration_minutes : ℚ
deriving DecidableEq, Repr

/-- The payload values appearing in a finding's `details` dict. -/
inductive DVal where
  | nat (n : ℕ)
  | str (s : String)
  | counts (l : List (String × ℕ))
  | labeled (l : List (String × String))
  | gapList (l : List GapInfo)
  | sessList (l : List SessInfo)
  | pageGaps (l : List (String × List GapInfo))
  | pageErrs (l : List (String × List ErrInfo))
deriving DecidableEq, Repr

/-- A finding, as appended to `self.flows` / `self.anomalies`. -/
structure Finding where
  title : String
  description : String
  severity : Option String := none
  details : List (String × DVal)
deriving DecidableEq, Repr

/-- The scan loop of `_is_successful_checkout` over the session's checkout
events, with the `continue` / early-`return True` control flow. -/
def checkoutScan : List Event → Bool
  | [] => false
  | e :: rest =>
    let css := (e.css.getD "").toLower
    let text := (e.text.getD "").toLower
    if strHasSub "error" css || strHasSub "error" text then checkoutScan rest
    else if strHasSub "cancel" css || strHasSub "cancel" text then checkoutScan rest
    else if strHasSub "place order" text then true
    else checkoutScan rest

/-- Embedding of `_is_successful_checkout`. -/
def is_successful_checkout (events : List Event) : Bool :=
  let checkout_events := events.filter (fun e => e.path = "/checkout")
  if checkout_events.isEmpty then false else checkoutScan checkout_events

/-- Sessions classified successful by `analyze_flows`, in scan order. -/
def successful_checkouts (g : Grouped) : List SessionRec :=
  (allSessions g).filter (fun s => is_successful_checkout s.events)

/-- Sessions classified abandoned by `analyze_flows`, in scan order. -/
def abandoned_flows (g : Grouped) : List SessionRec :=
  (allSessions g).filter (fun s => !is_successful_checkout s.events)

/-- The `path_sequences` list built by `analyze_flows`: one path list per
session, in scan order. -/
def path_sequences (g : Grouped) : List (List String) :=
  (allSessions g).map (fun s => s.events.map (·.path))

/-- The `' → '.join(...)` of a session's path sequence. -/
def joinArrow (ps : List String) : String := String.intercalate " → " ps

/-- Division that raises on a zero denominator (`ZeroDivisionError`). -/
def divE (a b : ℚ) : Except String ℚ :=
  if b = 0 then .error "ZeroDivisionError" else .ok (a / b)

/-- Total rational mean (used only under a nonemptiness guard). -/
def meanQ (l : List ℚ) : ℚ := l.sum / l.length

/-- `statistics.mean`, which raises on an empty list. -/
def meanE (l : List ℚ) : Except String ℚ :=
  if l = [] then .error "StatisticsError" else .ok (meanQ l)

/-- Sample variance of a list (the square of `statistics.stdev`). -/
def sampleVarQ (l : List ℚ) : ℚ :=
  ((l.map (fun x => (x - meanQ l) ^ 2)).sum) / ((l.length : ℚ) - 1)

/-- `max(l, key=f)`, which raises on an empty list and keeps the earliest
element among ties. -/
def maxByE {α : Type} (f : α → ℚ) : List α → Except String α
  | [] => .error "ValueError"
  | x :: xs => .ok (xs.foldl (fun acc y => if f acc < f y then y else acc) x)

/-- The entry-point scan list `[seq[0] for seq in path_sequences if seq]`. -/
def entryScan (g : Grouped) : List String :=
  (path_sequences g).filterMap (fun seq => seq.head?)

/-- The exit-point scan list
`[flow['last_path'] for flow in abandoned_flows if flow['last_path']]`:
the last path of each abandoned session, dropping falsy values (`None` for
an empty session, and the empty string). -/
def exitScan (g : Grouped) : List String :=
  (abandoned_flows g).filterMap (fun s =>
    match (s.events.map (·.path)).getLast? with
    | some p => if p = "" then none else some p
    | none => none)

/-- Embedding of `_analyze_flow_patterns`: up to two conditional findings
plus the unconditional entry-points finding. -/
def analyze_flow_patterns (g : Grouped) : Except String (List Finding) := do
  let succ := successful_checkouts g
  let ab := abandoned_flows g
  let seqs := path_sequences g
  let f1 ← if succ ≠ [] then do
      let rate ← divE (succ.length : ℚ) (seqs.length : ℚ)
      pure [{ title := "Successful Purchase Flows"
              description := "Found " ++ toString succ.length ++ " successful checkout sessions"
              details :=
                [("total_successful", .nat succ.length),
                 ("most_common_patterns",
                   .counts (most_common 3 (countList (succ.map (fun s => joinArrow (s.events.map (·.path))))))),
                 ("conversion_rate", .str (fmt1 (rate * 100) ++ "%"))] }]
    else pure []
  let f2 ← if ab ≠ [] then do
      let rate ← divE (ab.length : ℚ) (seqs.length : ℚ)
      pure [{ title := "Flow Abandonment Patterns"
              description := "Analyzed " ++ toString ab.length ++ " abandoned sessions"
              details :=
                [("total_abandoned", .nat ab.length),
                 ("common_exit_points", .counts (most_common 5 (countList (exitScan g)))),
                 ("abandonment_rate", .str (fmt1 (rate * 100) ++ "%"))] }]
    else pure []
  let entry : Finding :=
    { title := "User Entry Points"
      description := "Most common starting pages for user sessions"
      details := [("top_entry_points", .counts (most_common 5 (countList (entryScan g))))] }
  pure (f1 ++ f2 ++ [entry])

/-- Model of `path.startswith('/products/')`. -/
def isProductPath (p : String) : Bool := chPrefix "/products/".data p.data

/-- The set `products_in_session`, enumerated in first-insertion order.  The
script iterates a Python `set`, whose iteration order is unspecified; an
iteration-order parameter `σ` (admissible when it permutes its input) is
applied to this enumeration at the use site. -/
def productsInSession (es : List Event) : List String :=
  fdedup ((es.map (·.path)).filter isProductPath)

/-- The stream of `counter[product] += 1` increments performed by
`_analyze_product_insights`, for set-iteration order `σ`. -/
def productScan (g : Grouped) (σ : List String → List String) : List String :=
  (allSessions g).flatMap (fun s => σ (productsInSession s.events))

/-- The `product_sessions` counter. -/
def product_sessions (g : Grouped) (σ : List String → List String) : List (String × ℕ) :=
  countList (productScan g σ)

/-- Embedding of `total_product_sessions = sum(product_sessions.values())`:
the sum of the per-product session counts (NOT the number of distinct
product-viewing sessions; a session viewing several distinct products is
counted once per product). -/
def total_product_sessions (g : Grouped) (σ : List String → List String) : ℕ :=
  ((product_sessions g σ).map (·.2)).sum

/-- Embedding of `_analyze_product_insights`. -/
def analyze_product_insights (g : Grouped) (σ : List String → List String) :
    Except String (List Finding) := do
  let ps := product_sessions g σ
  if ps ≠ [] then
    pure [{ title := "Most Consulted Products"
            description := "Analysis of products viewed across " ++
              toString (total_product_sessions g σ) ++ " user sessions"
            details :=
              [("total_product_sessions", .nat (total_product_sessions g σ)),
               ("unique_products", .nat ps.length),
               ("top_products", .counts (most_common 10 ps))] }]
  else pure []

/-- Adjacent pairs `(events[i], events[i+1])` of a session. -/
def adjPairs (es : List Event) : List (Event × Event) := es.zip es.tail

/-- Generic insertion-ordered `defaultdict(list)` append. -/
def appendAssoc {β : Type} (acc : List (String × List β)) (k : String) (v : β) :
    List (String × List β) :=
  match acc with
  | [] => [(k, [v])]
  | (a, vs) :: rest =>
    if a = k then (a, vs ++ [v]) :: rest else (a, vs) :: appendAssoc rest k v

/-- The stream of `(path, duration)` attributions of `_analyze_page_activity`:
for each adjacent pair, if both timestamps parse and the delta is strictly
between 0 and 1800 seconds, the delta is attributed to the earlier path;
parse failures are silently skipped (the `except` clause). -/
def attribStream (g : Grouped) : List (String × ℚ) :=
  (allSessions g).flatMap (fun s =>
    (adjPairs s.events).filterMap (fun ab =>
      match parse_event_time ab.1.event_time, parse_event_time ab.2.event_time with
      | some t0, some t1 =>
        let d : ℚ := ((t1 - t0 : ℤ) : ℚ)
        if 0 < d ∧ d < 1800 then some (ab.1.path, d) else none
      | _, _ => none))

/-- The `page_durations` defaultdict. -/
def page_durations (g : Grouped) : List (String × List ℚ) :=
  (attribStream g).foldl (fun acc x => appendAssoc acc x.1 x.2) []

/-- The `page_avg_durations` dict: mean duration per page, keeping only pages
with a non-empty duration list (the `if durations:` guard). -/
def page_avg_durations (g : Grouped) : List (String × ℚ) :=
  (page_durations g).filterMap (fun pd =>
    if pd.2 = [] then none else some (pd.1, meanQ pd.2))

/-- Embedding of `_analyze_page_activity`. -/
def analyze_page_activity (g : Grouped) : Except String (List Finding) := do
  let avgs := page_avg_durations g
  if avgs ≠ [] then do
    let sorted_pages := sortDesc avgs
    let overall ← meanE (avgs.map (·.2))
    pure [{ title := "Pages with Longest Activity"
            description := "Analysis of user time spent on " ++
              toString sorted_pages.length ++ " different pages"
            details :=
              [("total_pages_analyzed", .nat sorted_pages.length),
               ("longest_activity_pages",
                 .labeled ((sorted_pages.take 10).map (fun pv => (pv.1, fmt1 pv.2 ++ "s")))),
               ("average_page_time", .str (fmt1 overall ++ "s"))] }]
  else pure []

/-! ## Anomaly detectors -/

/-- Stable descending sort of a list by a rational key (the model of
`l.sort(key=..., reverse=True)`). -/
def sortDescBy {α : Type} (f : α → ℚ) (l : List α) : List α :=
  (sortDesc (l.map (fun x => (x, f x)))).map (·.1)

/-- The long-gap records of `_detect_time_gaps`, in scan order: adjacent
pairs more than 300 seconds apart, with parse failures skipped. -/
def gapStream (g : Grouped) : List GapInfo :=
  (allSessions g).flatMap (fun s =>
    if s.events.length < 2 then []
    else (adjPairs s.events).filterMap (fun ab =>
      match parse_event_time ab.1.event_time, parse_event_time ab.2.event_time with
      | some t0, some t1 =>
        let gap : ℚ := ((t1 - t0 : ℤ) : ℚ)
        if 300 < gap then
          some ⟨s.user_id, s.session_id, gap / 60, ab.1.path, ab.2.path⟩
        else none
      | _, _ => none))

/-- Embedding of `_detect_time_gaps`. -/
def detect_time_gaps (g : Grouped) : Except String (List Finding) := do
  let gaps := gapStream g
  if gaps ≠ [] then do
    let page_gaps := gaps.foldl (fun acc x => appendAssoc acc x.stuck_on_page x) []
    let sorted := sortDescBy (·.gap_minutes) gaps
    let avg ← meanE (gaps.map (·.gap_minutes))
    let longest ← maxByE (·.gap_minutes) gaps
    pure [{ title := "User Confusion / Long Delays"
            description := "Found " ++ toString gaps.length ++
              " instances of users spending >5 minutes on a page"
            severity := some (if 10 < gaps.length then "High" else "Medium")
            details :=
              [("total_instances", .nat gaps.length),
               ("average_gap", .str (fmt1 avg ++ " minutes")),
               ("longest_gap", .str (fmt1 longest.gap_minutes ++ " minutes")),
               ("page_specific_issues", .pageGaps page_gaps),
               ("examples", .gapList (sorted.take 3))] }]
  else pure []

/-- The error keyword list of `_detect_error_patterns`. -/
def error_keywords : List String :=
  ["error", "404", "timeout", "failed", "invalid", "missing"]

/-- Whether an event matches any error keyword in its lower-cased `css` or
`text` (missing values read as the empty string). -/
def isErrorEvent (e : Event) : Bool :=
  let css := (e.css.getD "").toLower
  let text := (e.text.getD "").toLower
  error_keywords.any (fun k => strHasSub k css || strHasSub k text)

/-- The `error_info` record built for a matching event. -/
def mkErrInfo (e : Event) : ErrInfo := ⟨e, e.text.getD "N/A", e.css.getD "N/A"⟩

/-- Embedding of `_detect_error_patterns` (it scans `self.events`, not the
grouped structure). -/
def detect_error_patterns (events : List Event) : Except String (List Finding) := do
  let errs := (events.filter isErrorEvent).map mkErrInfo
  if errs ≠ [] then
    let page_errors := errs.foldl (fun acc x => appendAssoc acc x.event.path x) []
    pure [{ title := "Technical Errors"
            description := "Found " ++ toString errs.length ++
              " events with error-related keywords"
            severity := some "High"
            details :=
              [("total_errors", .nat errs.length),
               ("page_specific_errors", .pageErrs page_errors)] }]
  else pure []

/-- The `session_lengths` list, in scan order. -/
def session_lengths (g : Grouped) : List ℚ :=
  (allSessions g).map (fun s => (s.events.length : ℚ))

/-- `statistics.stdev` squared (sample variance); raises on fewer than two
data points. -/
def varE (l : List ℚ) : Except String ℚ :=
  if l.length < 2 then .error "StatisticsError" else .ok (sampleVarQ l)

/-- The flagging test `len(events) > threshold` of `_detect_unusual_behaviors`,
where `threshold = avg + 2*stdev` when more than one session exists and
`avg * 2` otherwise.  The square root is eliminated: for `avg < n`,
`n > avg + 2*sqrt(var)` iff `(n - avg)^2 > 4*var`, which keeps the test in
exact rational arithmetic (the equivalence with the square-root form is
proved below over `ℝ`). -/
def unusualFlag (g : Grouped) (n : ℕ) : Bool :=
  let lens := session_lengths g
  let avg := meanQ lens
  if 1 < lens.length then
    decide (avg < (n : ℚ)) && decide (4 * sampleVarQ lens < ((n : ℚ) - avg) ^ 2)
  else decide (avg * 2 < (n : ℚ))

/-- Embedding of `_calculate_session_duration`: 0 for fewer than two events,
otherwise the difference of the last and first timestamps in minutes, with
parse failures yielding 0 (the `except` clause). -/
def calculate_session_duration (events : List Event) : ℚ :=
  if events.length < 2 then 0
  else
    match events.head?, events.getLast? with
    | some e0, some e1 =>
      match parse_event_time e0.event_time, parse_event_time e1.event_time with
      | some t0, some t1 => ((t1 - t0 : ℤ) : ℚ) / 60
      | _, _ => 0
    | _, _ => 0

/-- The `unusual_sessions` list: flagged sessions in scan order with their
event counts and durations. -/
def unusual_sessions (g : Grouped) : List SessInfo :=
  ((allSessions g).filter (fun s => unusualFlag g s.events.length)).map
    (fun s => ⟨s.user_id, s.session_id, s.events.length,
               calculate_session_duration s.events⟩)

/-- Embedding of `_detect_unusual_behaviors`.  The display string
`f"{threshold:.1f} events"` of the float threshold (which involves the
square root) is not modelled; the flagging comparison is modelled exactly
by `unusualFlag`. -/
def detect_unusual_behaviors (g : Grouped) : Except String (List Finding) := do
  let lens := session_lengths g
  if lens ≠ [] then do
    let avg ← meanE lens
    let _ ← if 1 < lens.length then varE lens else pure 0
    let flagged := unusual_sessions g
    if flagged ≠ [] then
      pure [{ title := "Unusual Session Activity"
              description := "Found " ++ toString flagged.length ++
                " sessions with unusually high activity"
              severity := some "Medium"
              details :=
                [("average_session_length", .str (fmt1 avg ++ " events")),
                 ("unusual_sessions", .sessList (flagged.take 5))] }]
    else pure []
  else pure []

/-- The whole `analyze_flows` finding list (`self.flows`). -/
def analyze_flows_findings (g : Grouped) (σ : List String → List String) :
    Except String (List Finding) := do
  pure ((← analyze_flow_patterns g) ++ (← analyze_product_insights g σ) ++
    (← analyze_page_activity g))

/-- The whole `detect_anomalies` finding list (`self.anomalies`). -/
def detect_anomalies_findings (g : Grouped) (events : List Event) :
    Except String (List Finding) := do
  pure ((← detect_time_gaps g) ++ (← detect_error_patterns events) ++
    (← detect_unusual_behaviors g))

/-- Flows followed by anomalies: every finding one run produces. -/
def allFindings (g : Grouped) (events : List Event)
    (σ : List String → List String) : Except String (List Finding) := do
  pure ((← analyze_flows_findings g σ) ++ (← detect_anomalies_findings g events))

/-! ## Claim-side (specification) definitions -/

/-- Specification wording of a qualifying checkout event: `path` is
`/checkout`, the lower-cased `css` and `text` (missing read as `""`)
contain neither `error` nor `cancel`, and the text contains `place order`. -/
def qualifyingCheckout (e : Event) : Prop :=
  e.path = "/checkout" ∧
  strHasSub "error" (e.css.getD "").toLower = false ∧
  strHasSub "error" (e.text.getD "").toLower = false ∧
  strHasSub "cancel" (e.css.getD "").toLower = false ∧
  strHasSub "cancel" (e.text.getD "").toLower = false ∧
  strHasSub "place order" (e.text.getD "").toLower = true

/-- Boolean form of the per-event success test (used to relate the scan
loop to the specification's existential). -/
def okCheckout (e : Event) : Bool :=
  !(strHasSub "error" (e.css.getD "").toLower) &&
  !(strHasSub "error" (e.text.getD "").toLower) &&
  !(strHasSub "cancel" (e.css.getD "").toLower) &&
  !(strHasSub "cancel" (e.text.getD "").toLower) &&
  strHasSub "place order" (e.text.getD "").toLower

/-- Specification count for C2: the number of sessions containing at least
one event whose path starts with `/products/`, each session counted exactly
once. -/
def productViewingSessions (g : Grouped) : ℕ :=
  ((allSessions g).filter (fun s => s.events.any (fun e => isProductPath e.path))).length

/-- Specification list for C6: the durations attributed to a page, i.e. the
deltas of adjacent pairs whose earlier path is `p` and whose delta lies
strictly between 0 and 1800 seconds, in scan order. -/
def attributedTo (g : Grouped) (p : String) : List ℚ :=
  ((attribStream g).filter (fun x => x.1 = p)).map (·.2)

/-- Association-list lookup with `[]` default (reading a
`defaultdict(list)` entry). -/
def lookupAssocL {β : Type} (m : List (String × List β)) (p : String) : List β :=
  match m with
  | [] => []
  | (a, vs) :: rest => if a = p then vs else lookupAssocL rest p

/-- Index of the first occurrence of `a` in `S` (length of `S` when
absent): the specification's "first encountered while scanning" order. -/
def firstIdx (S : List String) (a : String) : ℕ :=
  match S with
  | [] => 0
  | b :: rest => if b = a then 0 else firstIdx rest a + 1

/-- Specification order for C5 ties: `a`'s first occurrence in the scan
list `S` strictly precedes `b`'s. -/
def firstSight (S : List String) (a b : String) : Prop :=
  firstIdx S a < firstIdx S b

/-- Sum of the counts of a counter list. -/
def sumCounts (c : List (String × ℕ)) : ℕ := (c.map (·.2)).sum

/-- Specification count for C9: sessions with at least one event. -/
def nonemptySessionCount (g : Grouped) : ℕ :=
  ((allSessions g).filter (fun s => !s.events.isEmpty)).length

/-- Specification count for the amended C9: abandoned sessions whose last
path exists and is not the empty string (the script's truthiness filter
drops both `None` and `""`). -/
def abandonedExitCount (g : Grouped) : ℕ :=
  ((abandoned_flows g).filter
    (fun s => ((s.events.map (·.path)).getLast?.getD "") ≠ "")).length

/-- The findings actually produced by a step (`[]` when it raised). -/
def okList (e : Except String (List Finding)) : List Finding := (e.toOption).getD []

/-- Specification-side explicit form of the page-activity finding: top 10
pages by average dwell time (descending), formatted to one decimal with an
`s` suffix, and an overall figure that is the mean of the per-page
averages. -/
def pageActivityFinding (g : Grouped) : Finding :=
  { title := "Pages with Longest Activity"
    description := "Analysis of user time spent on " ++
      toString (sortDesc (page_avg_durations g)).length ++ " different pages"
    severity := none
    details :=
      [("total_pages_analyzed", .nat (sortDesc (page_avg_durations g)).length),
       ("longest_activity_pages",
         .labeled (((sortDesc (page_avg_durations g)).take 10).map
           (fun pv => (pv.1, fmt1 pv.2 ++ "s")))),
       ("average_page_time",
         .str (fmt1 (meanQ ((page_avg_durations g).map (·.2))) ++ "s"))] }

/-! ## Concrete test inputs -/

/-- A session viewing two distinct products (for C2). -/
def evProducts1 : Event := ⟨"u1", "s1", "2024-01-01T10:00:00Z", "/products/1", none, none⟩

/-- Second product view in the same session (for C2). -/
def evProducts2 : Event := ⟨"u1", "s1", "2024-01-01T10:01:00Z", "/products/2", none, none⟩

/-- One session that views both `/products/1` and `/products/2`. -/
def gProducts : Grouped := [("u1", [("s1", [evProducts1, evProducts2])])]

/-- An event timestamped `+05:00` (05:00 UTC), for C3. -/
def evMixedOffset1 : Event := ⟨"u1", "s1", "2024-01-01T10:00:00+05:00", "/home", none, none⟩

/-- An event timestamped `Z` (09:00 UTC), later than the other as an
instant but lexicographically smaller as a string, for C3. -/
def evMixedOffset2 : Event := ⟨"u1", "s1", "2024-01-01T09:00:00Z", "/cart", none, none⟩

/-- First product-b view, encountered before product a (for C5). -/
def evProdB : Event := ⟨"u1", "s1", "2024-01-01T10:00:00Z", "/products/b", none, none⟩

/-- Product-a view, encountered after product b (for C5). -/
def evProdA : Event := ⟨"u1", "s1", "2024-01-01T10:01:00Z", "/products/a", none, none⟩

/-- One session encountering `/products/b` first, then `/products/a`. -/
def gTieOrder : Grouped := [("u1", [("s1", [evProdB, evProdA])])]

/-- An abandoned session whose single event has the empty string as its
path (for C9). -/
def evEmptyPath : Event := ⟨"u1", "s1", "2024-01-01T10:00:00Z", "", none, none⟩

/-- Grouped structure holding only the empty-path session. -/
def gEmptyPath : Grouped := [("u1", [("s1", [evEmptyPath])])]

/-- Witness event: a one-event session. -/
def evW1 : Event := ⟨"u1", "s1", "2024-01-01T10:00:00Z", "/home", none, none⟩

/-- Witness event: first event of a two-event session. -/
def evW2 : Event := ⟨"u2", "s2", "2024-01-01T10:00:00Z", "/a", none, none⟩

/-- Witness event: second event of a two-event session. -/
def evW3 : Event := ⟨"u2", "s2", "2024-01-01T10:01:00Z", "/b", none, none⟩

/-- A grouped structure with two sessions (lengths 1 and 2). -/
def gWitness : Grouped := [("u1", [("s1", [evW1])]), ("u2", [("s2", [evW2, evW3])])]

/-! ## Counter lemmas -/

theorem bump_map_fst (c : List (String × ℕ)) (k : String) :
    (bump c k).map Prod.fst =
      if k ∈ c.map Prod.fst then c.map Prod.fst else c.map Prod.fst ++ [k] := by
  induction c with
  | nil => simp [bump]
  | cons x rest ih =>
    obtain ⟨a, n⟩ := x
    by_cases h : a = k
    · simp [bump, h]
    · simp only [bump, if_neg h, List.map_cons, List.mem_cons]
      rw [ih]
      by_cases hm : k ∈ rest.map Prod.fst
      · simp [hm, Ne.symm h]
      · simp [hm, Ne.symm h]

theorem foldl_bump_map_fst (l : List String) (c : List (String × ℕ)) :
    (l.foldl bump c).map Prod.fst =
      l.foldl (fun acc k => if k ∈ acc then acc else acc ++ [k]) (c.map Prod.fst) := by
  induction l generalizing c with
  | nil => rfl
  | cons k rest ih => simp only [List.foldl_cons, ih, bump_map_fst]

theorem countList_map_fst (l : List String) : (countList l).map Prod.fst = fdedup l := by
  simpa using foldl_bump_map_fst l []

theorem bump_sum (c : List (String × ℕ)) (k : String) :
    ((bump c k).map Prod.snd).sum = (c.map Prod.snd).sum + 1 := by
  induction c with
  | nil => simp [bump]
  | cons x rest ih =>
    obtain ⟨a, n⟩ := x
    by_cases h : a = k
    · simp [bump, h]; ring
    · simp [bump, h, ih]; ring

theorem foldl_bump_sum (l : List String) (c : List (String × ℕ)) :
    (((l.foldl bump c).map Prod.snd)).sum = (c.map Prod.snd).sum + l.length := by
  induction l generalizing c with
  | nil => simp
  | cons k rest ih =>
    simp only [List.foldl_cons, ih, bump_sum, List.length_cons]
    ring

theorem sumCounts_countList (l : List String) : sumCounts (countList l) = l.length := by
  simpa [sumCounts, countList] using foldl_bump_sum l []

/-! ## First-encounter order lemmas -/

theorem firstIdx_append_mem {a : String} {S : List String} (h : a ∈ S) (T : List String) :
    firstIdx (S ++ T) a = firstIdx S a := by
  induction S with
  | nil => cases h
  | cons b rest ih =>
    by_cases hb : b = a
    · simp [firstIdx, hb]
    · have : a ∈ rest := by
        rcases List.mem_cons.1 h with h' | h'
        · exact absurd h'.symm hb
        · exact h'
      simp [firstIdx, hb, ih this]

theorem firstIdx_append_not_mem {a : String} {S : List String} (h : a ∉ S) (T : List String) :
    firstIdx (S ++ T) a = S.length + firstIdx T a := by
  induction S with
  | nil => simp [firstIdx]
  | cons b rest ih =>
    have hb : b ≠ a := fun hba => h (hba ▸ List.mem_cons_self b rest)
    have hr : a ∉ rest := fun hm => h (List.mem_cons_of_mem b hm)
    simp [firstIdx, hb, ih hr]
    ring

theorem firstIdx_lt_length {a : String} {S : List String} (h : a ∈ S) :
    firstIdx S a < S.length := by
  induction S with
  | nil => cases h
  | cons b rest ih =>
    by_cases hb : b = a
    · simp [firstIdx, hb]
    · have : a ∈ rest := by
        rcases List.mem_cons.1 h with h' | h'
        · exact absurd h'.symm hb
        · exact h'
      simp only [firstIdx, if_neg hb, List.length_cons]
      exact Nat.succ_lt_succ (ih this)

theorem mem_foldl_fdedup (l : List String) (acc : List String) (a : String) :
    a ∈ l.foldl (fun acc k => if k ∈ acc then acc else acc ++ [k]) acc ↔ a ∈ acc ∨ a ∈ l := by
  induction l generalizing acc with
  | nil => simp
  | cons k rest ih =>
    simp only [List.foldl_cons, ih]
    by_cases hk : k ∈ acc
    · simp only [if_pos hk]
      constructor
      · rintro (h | h)
        · exact Or.inl h
        · exact Or.inr (List.mem_cons_of_mem k h)
      · rintro (h | h)
        · exact Or.inl h
        · rcases List.mem_cons.1 h with h' | h'
          · exact Or.inl (h' ▸ hk)
          · exact Or.inr h'
    · simp only [if_neg hk, List.mem_append, List.mem_singleton, List.mem_cons]
      tauto

theorem mem_fdedup {a : String} {l : List String} : a ∈ fdedup l ↔ a ∈ l := by
  simpa [fdedup] using mem_foldl_fdedup l [] a

theorem fdedup_append_single (l : List String) (k : String) :
    fdedup (l ++ [k]) = if k ∈ fdedup l then fdedup l else fdedup l ++ [k] := by
  simp [fdedup, List.foldl_append]

theorem fdedup_pairwise_firstSight (S : List String) :
    (fdedup S).Pairwise (firstSight S) := by
  induction S using List.reverseRecOn with
  | nil => simp [fdedup]
  | append_singleton S k ih =>
    rw [fdedup_append_single]
    by_cases hk : k ∈ fdedup S
    · rw [if_pos hk]
      refine ih.imp_of_mem ?_
      intro a b ha hb hab
      have ha' : a ∈ S := mem_fdedup.1 ha
      have hb' : b ∈ S := mem_fdedup.1 hb
      unfold firstSight at hab ⊢
      rwa [firstIdx_append_mem ha', firstIdx_append_mem hb']
    · rw [if_neg hk]
      have hk' : k ∉ S := fun h => hk (mem_fdedup.2 h)
      rw [List.pairwise_append]
      refine ⟨?_, List.pairwise_singleton _ _, ?_⟩
      · refine ih.imp_of_mem ?_
        intro a b ha hb hab
        have ha' : a ∈ S := mem_fdedup.1 ha
        have hb' : b ∈ S := mem_fdedup.1 hb
        unfold firstSight at hab ⊢
        rwa [firstIdx_append_mem ha', firstIdx_append_mem hb']
      · intro a ha b hb
        rw [List.mem_singleton] at hb
        subst hb
        have ha' : a ∈ S := mem_fdedup.1 ha
        unfold firstSight
        rw [firstIdx_append_mem ha', firstIdx_append_not_mem hk']
        calc firstIdx S a < S.length := firstIdx_lt_length ha'
        _ ≤ S.length + firstIdx [b] b := Nat.le_add_right _ _

theorem countList_pairwise_firstSight (S : List String) :
    (countList S).Pairwise (fun x y => firstSight S x.1 y.1) := by
  have h := fdedup_pairwise_firstSight S
  rw [← countList_map_fst S, List.pairwise_map] at h
  exact h

/-! ## Stable descending sort lemmas -/

theorem mem_insDesc {α β : Type} [LinearOrder β] {x z : α × β} {l : List (α × β)} :
    z ∈ insDesc x l → z = x ∨ z ∈ l := by
  induction l with
  | nil =>
    intro h
    simp only [insDesc, List.mem_singleton] at h
    exact Or.inl h
  | cons y ys ih =>
    intro h
    simp only [insDesc] at h
    by_cases hc : y.2 < x.2
    · rw [if_pos hc] at h
      rcases List.mem_cons.1 h with h1 | h1
      · exact Or.inl h1
      · exact Or.inr h1
    · rw [if_neg hc] at h
      rcases List.mem_cons.1 h with h1 | h1
      · exact Or.inr (h1 ▸ List.mem_cons_self y ys)
      · rcases ih h1 with h2 | h2
        · exact Or.inl h2
        · exact Or.inr (List.mem_cons_of_mem y h2)

theorem insDesc_pairwise {α β : Type} [LinearOrder β] {r : α → α → Prop}
    {x : α × β} {l : List (α × β)}
    (hl : l.Pairwise (Rdesc r)) (hx : ∀ y ∈ l, r y.1 x.1) :
    (insDesc x l).Pairwise (Rdesc r) := by
  induction l with
  | nil => simp [insDesc]
  | cons y ys ih =>
    rcases List.pairwise_cons.1 hl with ⟨hy, hys⟩
    by_cases hc : y.2 < x.2
    · rw [insDesc, if_pos hc]
      refine List.pairwise_cons.2 ⟨?_, hl⟩
      intro z hz
      rcases List.mem_cons.1 hz with h | h
      · exact Or.inl (h ▸ hc)
      · left
        rcases hy z h with h' | h'
        · exact lt_trans h' hc
        · exact h'.1 ▸ hc
    · rw [insDesc, if_neg hc]
      refine List.pairwise_cons.2 ⟨?_, ih hys (fun z hz => hx z (List.mem_cons_of_mem y hz))⟩
      intro z hz
      rcases mem_insDesc hz with h | h
      · subst h
        rcases lt_or_eq_of_le (le_of_not_lt hc) with h' | h'
        · exact Or.inl h'
        · exact Or.inr ⟨h'.symm, hx y (List.mem_cons_self y ys)⟩
      · exact hy z h

theorem foldl_insDesc_pairwise {α β : Type} [LinearOrder β] (r : α → α → Prop) :
    ∀ (l acc : List (α × β)), acc.Pairwise (Rdesc r) →
      (∀ y ∈ acc, ∀ x ∈ l, r y.1 x.1) →
      l.Pairwise (fun a b => r a.1 b.1) →
      (l.foldl (fun acc x => insDesc x acc) acc).Pairwise (Rdesc r) := by
  intro l
  induction l with
  | nil => intro acc hacc _ _; exact hacc
  | cons x rest ih =>
    intro acc hacc hcross hl
    rcases List.pairwise_cons.1 hl with ⟨hx, hrest⟩
    refine ih (insDesc x acc) ?_ ?_ hrest
    · exact insDesc_pairwise hacc (fun y hy => hcross y hy x (List.mem_cons_self x rest))
    · intro y hy z hz
      rcases mem_insDesc hy with h | h
      · exact h ▸ hx z hz
      · exact hcross y h z (List.mem_cons_of_mem x hz)

theorem sortDesc_pairwise {α β : Type} [LinearOrder β] (r : α → α → Prop)
    (l : List (α × β)) (h : l.Pairwise (fun a b => r a.1 b.1)) :
    (sortDesc l).Pairwise (Rdesc r) := by
  exact foldl_insDesc_pairwise r l [] (List.Pairwise.nil) (by simp) h

theorem sortDesc_sorted {α β : Type} [LinearOrder β] (l : List (α × β)) :
    (sortDesc l).Pairwise (fun x y => y.2 ≤ x.2) := by
  have h := sortDesc_pairwise (fun _ _ => True) l (List.pairwise_iff_forall_sublist.2 (by simp))
  refine h.imp ?_
  rintro x y (h' | h')
  · exact le_of_lt h'
  · exact le_of_eq h'.1.symm

theorem most_common_pairwise {α β : Type} [LinearOrder β] (r : α → α → Prop)
    (n : ℕ) (c : List (α × β)) (h : c.Pairwise (fun a b => r a.1 b.1)) :
    (most_common n c).Pairwise (Rdesc r) :=
  (sortDesc_pairwise r c h).take

/-! ## Association-list (`defaultdict(list)`) lemmas -/

theorem lookupAssocL_appendAssoc {β : Type} (c : List (String × List β)) (k : String)
    (v : β) (p : String) :
    lookupAssocL (appendAssoc c k v) p =
      lookupAssocL c p ++ (if k = p then [v] else []) := by
  induction c with
  | nil =>
    by_cases h : k = p
    · simp [appendAssoc, lookupAssocL, h]
    · simp [appendAssoc, lookupAssocL, h]
  | cons x rest ih =>
    obtain ⟨a, vs⟩ := x
    by_cases hak : a = k
    · subst hak
      by_cases hap : a = p
      · subst hap
        simp [appendAssoc, lookupAssocL]
      · simp [appendAssoc, lookupAssocL, hap]
    · by_cases hap : a = p
      · subst hap
        simp [appendAssoc, hak, lookupAssocL, Ne.symm hak]
      · simp [appendAssoc, hak, lookupAssocL, hap, ih]

theorem lookupAssocL_foldl_appendAssoc {β : Type} (l : List (String × β))
    (c : List (String × List β)) (p : String) :
    lookupAssocL (l.foldl (fun acc x => appendAssoc acc x.1 x.2) c) p =
      lookupAssocL c p ++ ((l.filter (fun x => x.1 = p)).map (·.2)) := by
  induction l generalizing c with
  | nil => simp
  | cons x rest ih =>
    simp only [List.foldl_cons, ih, lookupAssocL_appendAssoc]
    by_cases h : x.1 = p
    · simp [List.filter_cons, h, List.append_assoc]
    · simp [List.filter_cons, h]

theorem appendAssoc_map_fst {β : Type} (c : List (String × List β)) (k : String) (v : β) :
    (appendAssoc c k v).map Prod.fst =
      if k ∈ c.map Prod.fst then c.map Prod.fst else c.map Prod.fst ++ [k] := by
  induction c with
  | nil => simp [appendAssoc]
  | cons x rest ih =>
    obtain ⟨a, vs⟩ := x
    by_cases h : a = k
    · simp [appendAssoc, h]
    · simp only [appendAssoc, if_neg h, List.map_cons, List.mem_cons]
      rw [ih]
      by_cases hm : k ∈ rest.map Prod.fst
      · simp [hm, Ne.symm h]
      · simp [hm, Ne.symm h]

theorem foldl_appendAssoc_map_fst {β : Type} (l : List (String × β))
    (c : List (String × List β)) :
    ((l.foldl (fun acc x => appendAssoc acc x.1 x.2) c)).map Prod.fst =
      (l.map Prod.fst).foldl (fun acc k => if k ∈ acc then acc else acc ++ [k])
        (c.map Prod.fst) := by
  induction l generalizing c with
  | nil => rfl
  | cons x rest ih => simp only [List.foldl_cons, List.map_cons, ih, appendAssoc_map_fst]

theorem foldl_appendAssoc_values_nonempty {β : Type} (l : List (String × β))
    (c : List (String × List β)) (hc : ∀ e ∈ c, e.2 ≠ []) :
    ∀ e ∈ l.foldl (fun acc x => appendAssoc acc x.1 x.2) c, e.2 ≠ [] := by
  induction l generalizing c with
  | nil => exact hc
  | cons x rest ih =>
    refine ih (appendAssoc c x.1 x.2) ?_
    intro e he
    clear ih
    induction c with
    | nil =>
      simp only [appendAssoc, List.mem_singleton] at he
      subst he
      simp
    | cons y ys ihc =>
      obtain ⟨a, vs⟩ := y
      by_cases h : a = x.1
      · simp only [appendAssoc, if_pos h, List.mem_cons] at he
        rcases he with he | he
        · subst he; simp
        · exact hc _ (List.mem_cons_of_mem _ he)
      · simp only [appendAssoc, if_neg h, List.mem_cons] at he
        rcases he with he | he
        · subst he; exact hc _ (List.mem_cons_self _ _)
        · exact ihc (fun e' he' => hc e' (List.mem_cons_of_mem _ he')) he

/-! ## Grouping lemmas -/

theorem lookupSess_insertSess (m : SessMap) (sid : String) (e : Event) (s : String) :
    lookupSess (insertSess sid e m) s =
      lookupSess m s ++ (if sid = s then [e] else []) := by
  induction m with
  | nil =>
    by_cases h : sid = s
    · simp [insertSess, lookupSess, h]
    · simp [insertSess, lookupSess, h]
  | cons x rest ih =>
    obtain ⟨a, es⟩ := x
    by_cases hak : a = sid
    · subst hak
      by_cases hap : a = s
      · subst hap
        simp [insertSess, lookupSess]
      · simp [insertSess, lookupSess, hap]
    · by_cases hap : a = s
      · subst hap
        simp [insertSess, hak, lookupSess, Ne.symm hak]
      · simp [insertSess, hak, lookupSess, hap, ih]

theorem lookupSession_insertEvent (g : Grouped) (e : Event) (u s : String) :
    lookupSession (insertEvent g e) u s =
      lookupSession g u s ++ (if inSession u s e then [e] else []) := by
  induction g with
  | nil =>
    by_cases hu : e.user_id = u
    · by_cases hs : e.session_id = s
      · simp [insertEvent, lookupSession, lookupUser, lookupSess, inSession, hu, hs]
      · simp [insertEvent, lookupSession, lookupUser, lookupSess, inSession, hu, hs]
    · simp [insertEvent, lookupSession, lookupUser, lookupSess, inSession, hu]
  | cons x rest ih =>
    obtain ⟨a, sess⟩ := x
    by_cases ha : a = e.user_id
    · by_cases hu : a = u
      · have hue : e.user_id = u := ha.symm.trans hu
        simp only [insertEvent, if_pos ha, lookupSession, lookupUser, if_pos hu,
          lookupSess_insertSess]
        by_cases hs : e.session_id = s
        · simp [inSession, hue, hs]
        · simp [inSession, hs]
      · have hne : e.user_id ≠ u := fun h => hu (ha.trans h)
        simp only [insertEvent, if_pos ha, lookupSession, lookupUser, if_neg hu]
        simp [inSession, hne]
    · by_cases hu : a = u
      · have hne : e.user_id ≠ u := fun h => ha (hu.trans h.symm)
        simp only [insertEvent, if_neg ha, lookupSession, lookupUser, if_pos hu]
        simp [inSession, hne]
      · simp only [insertEvent, if_neg ha, lookupSession, lookupUser, if_neg hu]
        simpa [lookupSession] using ih

theorem lookupSession_foldl (l : List Event) (g : Grouped) (u s : String) :
    lookupSession (l.foldl insertEvent g) u s =
      lookupSession g u s ++ l.filter (inSession u s) := by
  induction l generalizing g with
  | nil => simp
  | cons e rest ih =>
    simp only [List.foldl_cons, ih, lookupSession_insertEvent, List.filter_cons]
    by_cases h : inSession u s e
    · simp [h, List.append_assoc]
    · simp [h]

theorem sessTotal_insertSess (m : SessMap) (sid : String) (e : Event) :
    sessTotal (insertSess sid e m) = sessTotal m + 1 := by
  induction m with
  | nil => simp [insertSess, sessTotal]
  | cons x rest ih =>
    obtain ⟨a, es⟩ := x
    by_cases h : a = sid
    · simp [insertSess, h, sessTotal]
      ring
    · simp [insertSess, h, sessTotal] at ih ⊢
      rw [ih]
      ring

theorem totalEvents_insertEvent (g : Grouped) (e : Event) :
    totalEvents (insertEvent g e) = totalEvents g + 1 := by
  induction g with
  | nil => simp [insertEvent, totalEvents, sessTotal]
  | cons x rest ih =>
    obtain ⟨a, sess⟩ := x
    by_cases h : a = e.user_id
    · have := sessTotal_insertSess sess e.session_id e
      simp only [sessTotal] at this
      simp [insertEvent, h, totalEvents, this]
      ring
    · simp only [insertEvent, if_neg h, totalEvents, List.map_cons, List.sum_cons]
      simp only [totalEvents] at ih
      rw [ih]
      ring

theorem totalEvents_foldl (l : List Event) (g : Grouped) :
    totalEvents (l.foldl insertEvent g) = totalEvents g + l.length := by
  induction l generalizing g with
  | nil => simp
  | cons e rest ih =>
    simp only [List.foldl_cons, ih, totalEvents_insertEvent, List.length_cons]
    ring

theorem insertSess_values_nonempty {m : SessMap} (sid : String) (e : Event)
    (h : ∀ se ∈ m, se.2 ≠ []) : ∀ se ∈ insertSess sid e m, se.2 ≠ [] := by
  induction m with
  | nil =>
    intro se hse
    simp only [insertSess, List.mem_singleton] at hse
    subst hse
    simp
  | cons x rest ih =>
    obtain ⟨a, es⟩ := x
    intro se hse
    by_cases hak : a = sid
    · simp only [insertSess, if_pos hak, List.mem_cons] at hse
      rcases hse with hse | hse
      · subst hse; simp
      · exact h _ (List.mem_cons_of_mem _ hse)
    · simp only [insertSess, if_neg hak, List.mem_cons] at hse
      rcases hse with hse | hse
      · subst hse; exact h _ (List.mem_cons_self _ _)
      · exact ih (fun se' hse' => h se' (List.mem_cons_of_mem _ hse')) se hse

theorem insertEvent_values_nonempty {g : Grouped} (e : Event)
    (h : ∀ um ∈ g, ∀ se ∈ um.2, se.2 ≠ []) :
    ∀ um ∈ insertEvent g e, ∀ se ∈ um.2, se.2 ≠ [] := by
  induction g with
  | nil =>
    intro um hum se hse
    simp only [insertEvent, List.mem_singleton] at hum
    subst hum
    simp only [List.mem_singleton] at hse
    subst hse
    simp
  | cons x rest ih =>
    obtain ⟨a, sess⟩ := x
    intro um hum se hse
    by_cases hae : a = e.user_id
    · simp only [insertEvent, if_pos hae, List.mem_cons] at hum
      rcases hum with hum | hum
      · subst hum
        exact insertSess_values_nonempty _ _ (h _ (List.mem_cons_self _ _)) se hse
      · exact h _ (List.mem_cons_of_mem _ hum) se hse
    · simp only [insertEvent, if_neg hae, List.mem_cons] at hum
      rcases hum with hum | hum
      · subst hum
        exact h _ (List.mem_cons_self _ _) se hse
      · exact ih (fun um' hum' => h um' (List.mem_cons_of_mem _ hum')) um hum se hse

theorem foldl_insertEvent_values_nonempty (l : List Event) (g : Grouped)
    (h : ∀ um ∈ g, ∀ se ∈ um.2, se.2 ≠ []) :
    ∀ um ∈ l.foldl insertEvent g, ∀ se ∈ um.2, se.2 ≠ [] := by
  induction l generalizing g with
  | nil => exact h
  | cons e rest ih => exact ih _ (insertEvent_values_nonempty e h)

/-! ## Sorting lemmas -/

theorem pySortEvents_sorted (l : List Event) : (pySortEvents l).Pairwise timeLe :=
  List.sorted_insertionSort timeLe l

theorem pySortEvents_length (l : List Event) : (pySortEvents l).length = l.length :=
  (List.perm_insertionSort timeLe l).length_eq

/-! ## Checkout classification lemmas -/

theorem checkoutScan_eq_any (l : List Event) : checkoutScan l = l.any okCheckout := by
  induction l with
  | nil => rfl
  | cons e rest ih =>
    simp only [checkoutScan, List.any_cons]
    by_cases h1 : strHasSub "error" (e.css.getD "").toLower = true
    · simp [okCheckout, h1, ih]
    · by_cases h2 : strHasSub "error" (e.text.getD "").toLower = true
      · simp [okCheckout, h1, h2, ih]
      · by_cases h3 : strHasSub "cancel" (e.css.getD "").toLower = true
        · simp [okCheckout, h1, h2, h3, ih]
        · by_cases h4 : strHasSub "cancel" (e.text.getD "").toLower = true
          · simp [okCheckout, h1, h2, h3, h4, ih]
          · by_cases h5 : strHasSub "place order" (e.text.getD "").toLower = true
            · simp [okCheckout, h1, h2, h3, h4, h5]
            · simp [okCheckout, h1, h2, h3, h4, h5, ih]

theorem is_successful_checkout_eq_any (events : List Event) :
    is_successful_checkout events =
      events.any (fun e => decide (e.path = "/checkout") && okCheckout e) := by
  simp only [is_successful_checkout, checkoutScan_eq_any, ← List.any_filter]
  by_cases h : (events.filter fun e => decide (e.path = "/checkout")) = []
  · simp [h]
  · simp [h, List.isEmpty_iff]

theorem qualifyingCheckout_iff (e : Event) :
    qualifyingCheckout e ↔ e.path = "/checkout" ∧ okCheckout e = true := by
  simp only [qualifyingCheckout, okCheckout, Bool.and_eq_true, Bool.not_eq_true']
  tauto

/-! ## Claim theorems -/

/-- C1: `_is_successful_checkout` returns true iff the session contains at
least one event with path `/checkout` whose lower-cased `css` and `text`
(missing read as `""`) contain neither `error` nor `cancel` and whose text
contains `place order`; sessions with no such event are classified
abandoned. -/
theorem C1_checkout_success_iff (events : List Event) :
    is_successful_checkout events = true ↔ ∃ e ∈ events, qualifyingCheckout e := by
  rw [is_successful_checkout_eq_any, List.any_eq_true]
  constructor
  · rintro ⟨e, he, hb⟩
    rw [Bool.and_eq_true, decide_eq_true_eq] at hb
    exact ⟨e, he, (qualifyingCheckout_iff e).2 hb⟩
  · rintro ⟨e, he, hq⟩
    refine ⟨e, he, ?_⟩
    rw [Bool.and_eq_true, decide_eq_true_eq]
    exact (qualifyingCheckout_iff e).1 hq

/-- C2: the reported `total_product_sessions` is the sum of the per-product
session counts, so a single session viewing two distinct products is
reported as 2 while the number of distinct product-viewing sessions is 1 —
the code contradicts its own comment "Calculate total sessions that viewed
products". -/
theorem C2_total_product_sessions_eval :
    total_product_sessions gProducts (fun l => l) = 2 ∧
    productViewingSessions gProducts = 1 :=
  ⟨rfl, rfl⟩

/-- C3 counterexample: `process_events` sorts by the raw `event_time`
string, so with mixed UTC offsets the grouped session is not in ascending
instant order: the stored order is `[evMixedOffset2, evMixedOffset1]`
although `evMixedOffset1`'s instant (1704085200) precedes
`evMixedOffset2`'s (1704099600). -/
theorem C3_counterexample_mixed_offsets :
    lookupSession (process_events [evMixedOffset1, evMixedOffset2]) "u1" "s1" =
      [evMixedOffset2, evMixedOffset1] ∧
    parse_event_time evMixedOffset1.event_time = some 1704085200 ∧
    parse_event_time evMixedOffset2.event_time = some 1704099600 ∧
    (1704085200 : ℤ) < 1704099600 :=
  ⟨by decide, rfl, rfl, by decide⟩

/-- C3 amended: after `process_events` every per-(user_id, session_id)
event list equals the subsequence of the globally string-sorted event list
belonging to that key, and is therefore ordered by ascending raw
`event_time` string (lexicographic code-point order, stable for ties) —
which agrees with ISO-instant order only when all timestamps share one
offset representation. -/
theorem C3_amended_sorted_by_raw_string (events : List Event) (u s : String) :
    lookupSession (process_events events) u s =
      (pySortEvents events).filter (inSession u s) ∧
    (lookupSession (process_events events) u s).Pairwise timeLe := by
  have h : lookupSession (process_events events) u s =
      (pySortEvents events).filter (inSession u s) := by
    have := lookupSession_foldl (pySortEvents events) [] u s
    simpa [process_events, lookupSession, lookupUser, lookupSess] using this
  exact ⟨h, h ▸ (pySortEvents_sorted events).filter _⟩

/-- C8: grouping neither drops nor duplicates events — the total event
count over all `(user_id, session_id)` groups equals the number of records
that passed validation. -/
theorem C8_event_conservation (rs : List Raw) :
    totalEvents (process_events (load_valid rs)) = (rs.filter is_valid_event).length := by
  unfold process_events
  rw [totalEvents_foldl]
  simp [totalEvents, pySortEvents_length, load_valid]

/-- C10: every `(user_id, session_id)` entry of the grouped structure maps
to a non-empty event list (groups are only ever created by appending an
event), so first and last paths are well defined. -/
theorem C10_sessions_nonempty (events : List Event) :
    ∀ um ∈ process_events events, ∀ se ∈ um.2, se.2 ≠ [] := by
  unfold process_events
  exact foldl_insertEvent_values_nonempty (pySortEvents events) [] (by simp)

/-- C10 witness: concretely, grouping a single event produces its session
group with a non-empty list. -/
theorem C10_sessions_nonempty_witness :
    (("s1", [evW1]) : String × List Event).2 ≠ [] :=
  C10_sessions_nonempty [evW1] ("u1", [("s1", [evW1])]) (by decide)
    ("s1", [evW1]) (by decide)

theorem length_filterMap_eq_length_filter {α β : Type} (f : α → Option β) (l : List α) :
    (l.filterMap f).length = (l.filter (fun a => (f a).isSome)).length := by
  induction l with
  | nil => rfl
  | cons x rest ih =>
    cases hf : f x with
    | none => simp [List.filterMap_cons, hf, ih]
    | some b => simp [List.filterMap_cons, hf, ih]

/-- C9 counterexample: a non-empty abandoned session whose last path is the
empty string is dropped from the exit-point counts by the script's
truthiness filter, so the exit counts sum to 0 while there is 1 non-empty
abandoned session. -/
theorem C9_counterexample_empty_string_exit :
    sumCounts (countList (exitScan gEmptyPath)) = 0 ∧
    ((abandoned_flows gEmptyPath).filter (fun s => !s.events.isEmpty)).length = 1 ∧
    sumCounts (countList (exitScan gEmptyPath)) ≠
      ((abandoned_flows gEmptyPath).filter (fun s => !s.events.isEmpty)).length :=
  ⟨rfl, rfl, by decide⟩

/-- C9 amended: the entry-point counts sum to the number of non-empty
sessions (including a first path equal to `""`), while the exit-point
counts sum to the number of abandoned sessions whose last path exists and
is NOT the empty string — a last path `""` is filtered out as falsy. -/
theorem C9_amended_aggregation_sums (g : Grouped) :
    sumCounts (countList (entryScan g)) = nonemptySessionCount g ∧
    sumCounts (countList (exitScan g)) = abandonedExitCount g := by
  constructor
  · rw [sumCounts_countList]
    unfold entryScan nonemptySessionCount
    rw [length_filterMap_eq_length_filter]
    unfold path_sequences
    rw [List.filter_map, List.length_map]
    congr 1
    apply List.filter_congr
    intro s _
    cases h : s.events with
    | nil => simp [h]
    | cons e es => simp [h]
  · rw [sumCounts_countList]
    unfold exitScan abandonedExitCount
    rw [length_filterMap_eq_length_filter]
    congr 1
    apply List.filter_congr
    intro s _
    cases hl : (s.events.map (·.path)).getLast? with
    | none => simp [hl]
    | some p => by_cases hp : p = "" <;> simp [hl, hp]

theorem filterMap_eq_map_of_some {α β : Type} (f : α → Option β) (m : α → β) (l : List α)
    (h : ∀ x ∈ l, f x = some (m x)) : l.filterMap f = l.map m := by
  induction l with
  | nil => rfl
  | cons x rest ih =>
    simp [List.filterMap_cons, h x (List.mem_cons_self x rest),
      ih (fun y hy => h y (List.mem_cons_of_mem x hy))]

theorem page_durations_map_fst (g : Grouped) :
    (page_durations g).map Prod.fst = fdedup ((attribStream g).map Prod.fst) := by
  unfold page_durations fdedup
  simpa using foldl_appendAssoc_map_fst (attribStream g) []

theorem page_durations_values_nonempty (g : Grouped) :
    ∀ e ∈ page_durations g, e.2 ≠ [] :=
  foldl_appendAssoc_values_nonempty (attribStream g) [] (by simp)

theorem page_avg_durations_eq_map (g : Grouped) :
    page_avg_durations g = (page_durations g).map (fun pd => (pd.1, meanQ pd.2)) := by
  unfold page_avg_durations
  exact filterMap_eq_map_of_some _ _ _
    (fun x hx => by simp [page_durations_values_nonempty g x hx])

theorem page_avg_pairwise (g : Grouped) :
    (page_avg_durations g).Pairwise
      (fun x y => firstSight ((attribStream g).map Prod.fst) x.1 y.1) := by
  rw [page_avg_durations_eq_map, List.pairwise_map]
  have h := fdedup_pairwise_firstSight ((attribStream g).map Prod.fst)
  rw [← page_durations_map_fst, List.pairwise_map] at h
  exact h

/-- C5 counterexample: the per-session product set is iterated in an
unspecified (hash-dependent) order; with the admissible iteration order
`List.reverse` (a permutation of the set enumeration) the tied entries of
`top_products` come out as `a` before `b` although `/products/b` is first
encountered in the session scan — so tie order is NOT the first-encounter
order of the event scan. -/
theorem C5_counterexample_product_tie_order :
    most_common 10 (product_sessions gTieOrder List.reverse) =
      [("/products/a", 1), ("/products/b", 1)] ∧
    ¬ firstSight (productScan gTieOrder (fun l => l)) "/products/a" "/products/b" ∧
    (List.reverse (productsInSession [evProdB, evProdA])).Perm
      (productsInSession [evProdB, evProdA]) :=
  ⟨rfl, by unfold firstSight; decide, by decide⟩

/-- C5 amended: every top-N list is in descending count order with ties in
counting-structure insertion order; for flow patterns, exit points, entry
points, and dwell-time pages that order is the first-encounter order of the
corresponding scan, while for products it is the first-encounter order of
the per-session set-iteration stream (σ), which is unspecified and need not
match the event-scan order. -/
theorem C5_amended_topn_order (g : Grouped) (σ : List String → List String) :
    (most_common 3 (countList ((successful_checkouts g).map
        (fun s => joinArrow (s.events.map (·.path)))))).Pairwise
      (Rdesc (firstSight ((successful_checkouts g).map
        (fun s => joinArrow (s.events.map (·.path)))))) ∧
    (most_common 5 (countList (exitScan g))).Pairwise
      (Rdesc (firstSight (exitScan g))) ∧
    (most_common 5 (countList (entryScan g))).Pairwise
      (Rdesc (firstSight (entryScan g))) ∧
    (most_common 10 (product_sessions g σ)).Pairwise
      (Rdesc (firstSight (productScan g σ))) ∧
    ((sortDesc (page_avg_durations g)).take 10).Pairwise
      (Rdesc (firstSight ((attribStream g).map Prod.fst))) :=
  ⟨most_common_pairwise _ _ _ (countList_pairwise_firstSight _),
   most_common_pairwise _ _ _ (countList_pairwise_firstSight _),
   most_common_pairwise _ _ _ (countList_pairwise_firstSight _),
   most_common_pairwise _ _ _ (countList_pairwise_firstSight _),
   (sortDesc_pairwise _ _ (page_avg_pairwise g)).take⟩

theorem page_durations_lookup (g : Grouped) (p : String) :
    lookupAssocL (page_durations g) p = attributedTo g p := by
  unfold page_durations attributedTo
  simpa [lookupAssocL] using lookupAssocL_foldl_appendAssoc (attribStream g) [] p

theorem fdedup_nodup (l : List String) : (fdedup l).Nodup :=
  (fdedup_pairwise_firstSight l).imp
    (fun hab he => absurd (he ▸ hab) (lt_irrefl _))

theorem map_mean_eq (m : List (String × List ℚ)) (hnd : (m.map Prod.fst).Nodup) :
    m.map (fun pd => (pd.1, meanQ pd.2)) =
      (m.map Prod.fst).map (fun p => (p, meanQ (lookupAssocL m p))) := by
  induction m with
  | nil => rfl
  | cons x rest ih =>
    obtain ⟨a, vs⟩ := x
    simp only [List.map_cons, List.nodup_cons] at hnd
    obtain ⟨ha, hrest⟩ := hnd
    simp only [List.map_cons]
    refine List.cons_eq_cons.2 ⟨by simp [lookupAssocL], ?_⟩
    rw [ih hrest]
    apply List.map_congr_left
    intro p hp
    have hpa : a ≠ p := fun h => ha (h ▸ hp)
    simp [lookupAssocL, hpa]

theorem okList_ok (l : List Finding) : okList (Except.ok l) = l := rfl

theorem okList_pure (l : List Finding) : okList (pure l) = l := rfl

theorem exceptPure_eq_ok {α : Type} (a : α) : (pure a : Except String α) = Except.ok a := rfl

theorem exceptBind_ok {α β : Type} (a : α) (f : α → Except String β) :
    (Except.ok a : Except String α) >>= f = f a := rfl

theorem exceptOk_isOk {α : Type} (a : α) : (Except.ok a : Except String α).isOk = true := rfl

theorem analyze_page_activity_okList (g : Grouped) :
    okList (analyze_page_activity g) =
      (if page_avg_durations g = [] then [] else [pageActivityFinding g]) := by
  by_cases h : page_avg_durations g = []
  · simp [analyze_page_activity, h, okList_pure]
  · have h2 : (page_avg_durations g).map (·.2) ≠ [] := by
      intro hc
      exact h (List.map_eq_nil_iff.1 hc)
    simp [analyze_page_activity, h, okList_ok, okList_pure, meanE, h2, pageActivityFinding]

/-- C6: each adjacent-pair delta is attributed to the earlier path exactly
when it lies strictly between 0 and 1800 seconds; each page's reported
value is the mean of its attributed deltas; the finding lists the top 10
pages by average in descending order formatted to one decimal with an `s`
suffix; and the overall figure is the mean of the per-page averages. -/
theorem C6_page_dwell_time (g : Grouped) :
    (∀ p, lookupAssocL (page_durations g) p = attributedTo g p) ∧
    page_avg_durations g =
      ((page_durations g).map Prod.fst).map (fun p => (p, meanQ (attributedTo g p))) ∧
    okList (analyze_page_activity g) =
      (if page_avg_durations g = [] then [] else [pageActivityFinding g]) ∧
    ((sortDesc (page_avg_durations g)).take 10).Pairwise (fun x y => y.2 ≤ x.2) := by
  refine ⟨page_durations_lookup g, ?_, analyze_page_activity_okList g, (sortDesc_sorted _).take⟩
  rw [page_avg_durations_eq_map]
  have hnd : ((page_durations g).map Prod.fst).Nodup := by
    rw [page_durations_map_fst]
    exact fdedup_nodup _
  rw [map_mean_eq _ hnd]
  simp only [page_durations_lookup]

/-! ## Unusual-session threshold lemmas -/

theorem lt_add_two_sqrt_iff {m v n : ℝ} (hv : 0 ≤ v) :
    m + 2 * Real.sqrt v < n ↔ m < n ∧ 4 * v < (n - m) ^ 2 := by
  constructor
  · intro h
    have hs : 0 ≤ Real.sqrt v := Real.sqrt_nonneg v
    have hm : m < n := by linarith
    refine ⟨hm, ?_⟩
    have h2 : 2 * Real.sqrt v < n - m := by linarith
    have h3 : (2 * Real.sqrt v) ^ 2 < (n - m) ^ 2 :=
      pow_lt_pow_left₀ h2 (by positivity) (by norm_num)
    have h4 : (2 * Real.sqrt v) ^ 2 = 4 * v := by
      rw [mul_pow, Real.sq_sqrt hv]
      norm_num
    linarith [h4 ▸ h3]
  · rintro ⟨hm, h4⟩
    have hnm : 0 < n - m := by linarith
    have h5 : Real.sqrt (4 * v) < n - m := by
      rw [Real.sqrt_lt' hnm]
      exact h4
    have h6 : Real.sqrt (4 * v) = 2 * Real.sqrt v := by
      rw [Real.sqrt_mul (by norm_num : (0:ℝ) ≤ 4) v,
        show (4:ℝ) = 2 ^ 2 by norm_num, Real.sqrt_sq (by norm_num : (0:ℝ) ≤ 2)]
    rw [h6] at h5
    linarith

theorem sampleVarQ_nonneg {l : List ℚ} (h : 2 ≤ l.length) : 0 ≤ sampleVarQ l := by
  unfold sampleVarQ
  apply div_nonneg
  · apply List.sum_nonneg
    intro x hx
    simp only [List.mem_map] at hx
    obtain ⟨y, _, rfl⟩ := hx
    positivity
  · have h2 : (2:ℚ) ≤ (l.length : ℚ) := by exact_mod_cast h
    linarith

theorem unusualFlag_iff_many (g : Grouped) (h : 1 < (session_lengths g).length) (n : ℕ) :
    unusualFlag g n = true ↔
      ((meanQ (session_lengths g) : ℝ) +
        2 * Real.sqrt ((sampleVarQ (session_lengths g) : ℝ)) < (n : ℝ)) := by
  have hv : (0:ℝ) ≤ ((sampleVarQ (session_lengths g)) : ℝ) := by
    have := sampleVarQ_nonneg (l := session_lengths g) (by omega)
    exact_mod_cast this
  rw [lt_add_two_sqrt_iff hv]
  unfold unusualFlag
  rw [if_pos h]
  simp only [Bool.and_eq_true, decide_eq_true_eq]
  constructor
  · rintro ⟨h1, h2⟩
    constructor
    · exact_mod_cast h1
    · have h3 : ((4 * sampleVarQ (session_lengths g) : ℚ) : ℝ) <
          ((((n : ℚ) - meanQ (session_lengths g)) ^ 2 : ℚ) : ℝ) := by exact_mod_cast h2
      push_cast at h3
      linarith
  · rintro ⟨h1, h2⟩
    constructor
    · exact_mod_cast h1
    · have h3 : ((4 * sampleVarQ (session_lengths g) : ℚ) : ℝ) <
          ((((n : ℚ) - meanQ (session_lengths g)) ^ 2 : ℚ) : ℝ) := by
        push_cast
        linarith
      exact_mod_cast h3

theorem unusualFlag_iff_single (g : Grouped) (h : ¬ 1 < (session_lengths g).length) (n : ℕ) :
    unusualFlag g n = true ↔ meanQ (session_lengths g) * 2 < (n : ℚ) := by
  unfold unusualFlag
  rw [if_neg h]
  simp

theorem session_lengths_nil_iff (g : Grouped) :
    session_lengths g = [] ↔ allSessions g = [] := by
  unfold session_lengths
  simp

theorem detect_unusual_spec (g : Grouped) :
    (okList (detect_unusual_behaviors g) = [] ↔ unusual_sessions g = []) ∧
    (∀ f ∈ okList (detect_unusual_behaviors g), f.severity = some "Medium") ∧
    (detect_unusual_behaviors g).isOk = true := by
  by_cases hl : session_lengths g = []
  · have hs : allSessions g = [] := (session_lengths_nil_iff g).1 hl
    have hu : unusual_sessions g = [] := by simp [unusual_sessions, hs]
    simp [detect_unusual_behaviors, hl, okList_pure, okList_ok, hu, exceptPure_eq_ok,
      exceptOk_isOk]
  · have hm : meanE (session_lengths g) = .ok (meanQ (session_lengths g)) := by
      simp [meanE, hl]
    by_cases h12 : 1 < (session_lengths g).length
    · have hv : varE (session_lengths g) = .ok (sampleVarQ (session_lengths g)) := by
        simp only [varE, if_neg (by omega : ¬ (session_lengths g).length < 2)]
      by_cases hf : unusual_sessions g = []
      · simp [detect_unusual_behaviors, hl, hm, h12, hv, hf, okList_pure, okList_ok,
          exceptPure_eq_ok, exceptBind_ok, exceptOk_isOk]
      · simp [detect_unusual_behaviors, hl, hm, h12, hv, hf, okList_ok, okList_pure,
          exceptPure_eq_ok, exceptBind_ok, exceptOk_isOk]
    · by_cases hf : unusual_sessions g = []
      · simp [detect_unusual_behaviors, hl, hm, h12, hf, okList_pure, okList_ok,
          exceptPure_eq_ok, exceptBind_ok, exceptOk_isOk]
      · simp [detect_unusual_behaviors, hl, hm, h12, hf, okList_ok, okList_pure,
          exceptPure_eq_ok, exceptBind_ok, exceptOk_isOk]

/-- C7: with at least one session, the unusual-session flag tests the event
count against `mean + 2 * sample standard deviation` when there are at
least two sessions and against `mean * 2` for a single session; a Finding
is emitted exactly when some session is flagged and carries severity
Medium; a flagged session's reported duration is last minus first event
time in minutes, and 0 for sessions with fewer than two events. -/
theorem C7_unusual_session_threshold (g : Grouped) (_hne : allSessions g ≠ []) :
    (1 < (session_lengths g).length →
      ∀ n : ℕ, (unusualFlag g n = true ↔
        (meanQ (session_lengths g) : ℝ) +
          2 * Real.sqrt ((sampleVarQ (session_lengths g) : ℝ)) < (n : ℝ))) ∧
    ((session_lengths g).length = 1 →
      ∀ n : ℕ, (unusualFlag g n = true ↔ meanQ (session_lengths g) * 2 < (n : ℚ))) ∧
    (okList (detect_unusual_behaviors g) = [] ↔ unusual_sessions g = []) ∧
    (∀ f ∈ okList (detect_unusual_behaviors g), f.severity = some "Medium") ∧
    (∀ es : List Event, es.length < 2 → calculate_session_duration es = 0) ∧
    (∀ es : List Event, ∀ e0 e1 : Event, ∀ t0 t1 : ℤ,
      2 ≤ es.length → es.head? = some e0 → es.getLast? = some e1 →
      parse_event_time e0.event_time = some t0 →
      parse_event_time e1.event_time = some t1 →
      calculate_session_duration es = ((t1 - t0 : ℤ) : ℚ) / 60) := by
  obtain ⟨hiff, hsev, _⟩ := detect_unusual_spec g
  refine ⟨fun h12 n => unusualFlag_iff_many g h12 n,
    fun h1 n => unusualFlag_iff_single g (by omega) n, hiff, hsev, ?_, ?_⟩
  · intro es hlt
    unfold calculate_session_duration
    rw [if_pos hlt]
  · intro es e0 e1 t0 t1 hlen h0 h1 hp0 hp1
    unfold calculate_session_duration
    rw [if_neg (by omega)]
    simp [h0, h1, hp0, hp1]

/-- C7 witness: the threshold equivalence applied to the concrete grouped
structure with two sessions at event count 5. -/
theorem C7_unusual_session_threshold_witness :
    unusualFlag gWitness 5 = true ↔
      (meanQ (session_lengths gWitness) : ℝ) +
        2 * Real.sqrt ((sampleVarQ (session_lengths gWitness) : ℝ)) < ((5 : ℕ) : ℝ) :=
  (C7_unusual_session_threshold gWitness (by decide)).1 (by decide) 5

/-! ## Finding-step emission lemmas (C4) -/

theorem path_sequences_length (g : Grouped) :
    (path_sequences g).length = (allSessions g).length := by
  simp [path_sequences]

theorem seqs_len_ne_zero {g : Grouped} {p : SessionRec → Bool}
    (h : (allSessions g).filter p ≠ []) : ((path_sequences g).length : ℚ) ≠ 0 := by
  have h1 : allSessions g ≠ [] := by
    intro hc
    exact h (by simp [hc])
  rw [path_sequences_length]
  simpa [Nat.cast_ne_zero, List.length_eq_zero] using h1

theorem afp_spec (g : Grouped) :
    (analyze_flow_patterns g).isOk = true ∧
    (okList (analyze_flow_patterns g)).length =
      ((if successful_checkouts g = [] then 0 else 1) +
       (if abandoned_flows g = [] then 0 else 1) + 1) := by
  by_cases hs : successful_checkouts g = [] <;> by_cases ha : abandoned_flows g = []
  · simp [analyze_flow_patterns, hs, ha, okList_pure, okList_ok, exceptPure_eq_ok,
      exceptBind_ok, exceptOk_isOk]
  · have hd : divE ((abandoned_flows g).length : ℚ) ((path_sequences g).length : ℚ) =
        .ok (((abandoned_flows g).length : ℚ) / ((path_sequences g).length : ℚ)) := by
      simp [divE, seqs_len_ne_zero (p := fun s => !is_successful_checkout s.events) ha]
    simp [analyze_flow_patterns, hs, ha, hd, okList_pure, okList_ok, exceptPure_eq_ok,
      exceptBind_ok, exceptOk_isOk]
  · have hd : divE ((successful_checkouts g).length : ℚ) ((path_sequences g).length : ℚ) =
        .ok (((successful_checkouts g).length : ℚ) / ((path_sequences g).length : ℚ)) := by
      simp [divE, seqs_len_ne_zero (p := fun s => is_successful_checkout s.events) hs]
    simp [analyze_flow_patterns, hs, ha, hd, okList_pure, okList_ok, exceptPure_eq_ok,
      exceptBind_ok, exceptOk_isOk]
  · have hd1 : divE ((successful_checkouts g).length : ℚ) ((path_sequences g).length : ℚ) =
        .ok (((successful_checkouts g).length : ℚ) / ((path_sequences g).length : ℚ)) := by
      simp [divE, seqs_len_ne_zero (p := fun s => is_successful_checkout s.events) hs]
    have hd2 : divE ((abandoned_flows g).length : ℚ) ((path_sequences g).length : ℚ) =
        .ok (((abandoned_flows g).length : ℚ) / ((path_sequences g).length : ℚ)) := by
      simp [divE, seqs_len_ne_zero (p := fun s => !is_successful_checkout s.events) ha]
    simp [analyze_flow_patterns, hs, ha, hd1, hd2, okList_pure, okList_ok, exceptPure_eq_ok,
      exceptBind_ok, exceptOk_isOk]

theorem products_spec (g : Grouped) (σ : List String → List String) :
    (analyze_product_insights g σ).isOk = true ∧
    (okList (analyze_product_insights g σ) = [] ↔ product_sessions g σ = []) := by
  by_cases h : product_sessions g σ = [] <;>
    simp [analyze_product_insights, h, okList_pure, okList_ok, exceptPure_eq_ok,
      exceptBind_ok, exceptOk_isOk]

theorem page_durations_nil_iff (g : Grouped) :
    page_durations g = [] ↔ attribStream g = [] := by
  constructor
  · intro h
    by_contra hc
    obtain ⟨x, xs, hx⟩ := List.exists_cons_of_ne_nil hc
    have hm : x.1 ∈ (page_durations g).map Prod.fst := by
      rw [page_durations_map_fst]
      apply mem_fdedup.2
      rw [hx]
      simp
    rw [h] at hm
    simp at hm
  · intro h
    unfold page_durations
    rw [h]
    rfl

theorem page_avg_nil_iff (g : Grouped) :
    page_avg_durations g = [] ↔ attribStream g = [] := by
  rw [page_avg_durations_eq_map, List.map_eq_nil_iff, page_durations_nil_iff]

theorem page_spec (g : Grouped) :
    (analyze_page_activity g).isOk = true ∧
    (okList (analyze_page_activity g) = [] ↔ attribStream g = []) := by
  by_cases h : page_avg_durations g = []
  · simp [analyze_page_activity, h, okList_pure, okList_ok, exceptPure_eq_ok, exceptOk_isOk,
      ← page_avg_nil_iff]
  · have h2 : (page_avg_durations g).map (·.2) ≠ [] := by
      simpa [List.map_eq_nil_iff] using h
    have hm : meanE ((page_avg_durations g).map (·.2)) =
        .ok (meanQ ((page_avg_durations g).map (·.2))) := by simp [meanE, h2]
    simp [analyze_page_activity, h, hm, okList_pure, okList_ok, exceptPure_eq_ok,
      exceptBind_ok, exceptOk_isOk, ← page_avg_nil_iff]

theorem gaps_spec (g : Grouped) :
    (detect_time_gaps g).isOk = true ∧
    (okList (detect_time_gaps g) = [] ↔ gapStream g = []) := by
  by_cases h : gapStream g = []
  · simp [detect_time_gaps, h, okList_pure, okList_ok, exceptPure_eq_ok, exceptOk_isOk]
  · have h2 : (gapStream g).map (·.gap_minutes) ≠ [] := by
      simpa [List.map_eq_nil_iff] using h
    have hm : meanE ((gapStream g).map (·.gap_minutes)) =
        .ok (meanQ ((gapStream g).map (·.gap_minutes))) := by simp [meanE, h2]
    obtain ⟨x, xs, hx⟩ := List.exists_cons_of_ne_nil h
    have hmax : ∃ v, maxByE (·.gap_minutes) (gapStream g) = .ok v := by
      rw [hx]
      exact ⟨_, rfl⟩
    obtain ⟨v, hv⟩ := hmax
    simp [detect_time_gaps, h, hm, hv, okList_pure, okList_ok, exceptPure_eq_ok,
      exceptBind_ok, exceptOk_isOk]

theorem errors_spec (events : List Event) :
    (detect_error_patterns events).isOk = true ∧
    (okList (detect_error_patterns events) = [] ↔ events.filter isErrorEvent = []) := by
  by_cases h : events.filter isErrorEvent = [] <;>
    simp [detect_error_patterns, h, okList_pure, okList_ok, exceptPure_eq_ok,
      exceptBind_ok, exceptOk_isOk, List.map_eq_nil_iff]

/-- C4 counterexample: with zero sessions and zero events the pipeline
still produces one Finding — `_analyze_flow_patterns` appends the
`User Entry Points` finding unconditionally, with an empty top list —
contradicting "with zero sessions, zero Findings are produced". -/
theorem C4_counterexample_zero_sessions :
    okList (allFindings [] [] (fun l => l)) =
      [{ title := "User Entry Points"
         description := "Most common starting pages for user sessions"
         severity := none
         details := [("top_entry_points", DVal.counts [])] }] ∧
    okList (allFindings [] [] (fun l => l)) ≠ [] :=
  ⟨rfl, by decide⟩

/-- C4 amended: no finding-generation step can raise — each guards its
divisions, means, variances and maxima by the emptiness checks — and every
step except the entry-point aggregation omits its Finding exactly when its
data is empty; the entry-point Finding is appended unconditionally, so the
flow-pattern step always emits at least one Finding (hence with zero
sessions exactly one Finding is produced, not zero). -/
theorem C4_amended_no_raise_and_omission (g : Grouped) (events : List Event)
    (σ : List String → List String) :
    (analyze_flow_patterns g).isOk = true ∧
    (analyze_product_insights g σ).isOk = true ∧
    (analyze_page_activity g).isOk = true ∧
    (detect_time_gaps g).isOk = true ∧
    (detect_error_patterns events).isOk = true ∧
    (detect_unusual_behaviors g).isOk = true ∧
    (okList (analyze_product_insights g σ) = [] ↔ product_sessions g σ = []) ∧
    (okList (analyze_page_activity g) = [] ↔ attribStream g = []) ∧
    (okList (detect_time_gaps g) = [] ↔ gapStream g = []) ∧
    (okList (detect_error_patterns events) = [] ↔ events.filter isErrorEvent = []) ∧
    (okList (detect_unusual_behaviors g) = [] ↔ unusual_sessions g = []) ∧
    (okList (analyze_flow_patterns g)).length =
      ((if successful_checkouts g = [] then 0 else 1) +
       (if abandoned_flows g = [] then 0 else 1) + 1) :=
  ⟨(afp_spec g).1, (products_spec g σ).1, (page_spec g).1, (gaps_spec g).1,
   (errors_spec events).1, (detect_unusual_spec g).2.2, (products_spec g σ).2,
   (page_spec g).2, (gaps_spec g).2, (errors_spec events).2,
   (detect_unusual_spec g).1, (afp_spec g).2⟩

end UserFlow
